import Mathlib

/-!
Verification development for the MyStl container library
(`mystl_deque.h`, `mystl_vector.h`, `mystl_memory.h`).

The deque is modelled shallowly and faithfully to the source:

* the indirection table `_map` is a list of slots `slots : List (Option ℕ)`;
  slot `some b` holds a pointer to block `b`, slot `none` is an
  uninitialized spare slot (raw memory obtained from the map allocator and
  never written);
* allocated blocks live in `blocks : List (List α)`; a block is a run of
  `buf` cells where `buf` models `deque::buffer_size()` (512/sizeof(T),
  at least 1 — any `buf ≥ 1` is realized by a suitable element type);
* an iterator `(cur, first, last, node)` of the source is represented by
  the pair `(node, off)` with `off = cur - first`; `first`, `last` and
  `cur` are derived: `first = *node`, `last = first + buf`,
  `cur = first + off`.  The raw pointer value of `cur` is recovered by
  `curAddr` as the pair (block id, offset) when the slot is live, and
  `none` when the slot is uninitialized (a wild pointer in the source);
* element construction/assignment at an iterator is `writeIter`,
  dereference is `readIter`; reading or writing through an uninitialized
  slot or past a block is undefined behaviour in the source and is
  modelled by `none` / a no-op.
-/

namespace MyStl

/-- Deque iterator state: map-slot index `node` and intra-block offset
`off = cur - first`. The source's default-constructed iterator (all null
pointers) is `⟨0, 0⟩` — only pointer differences are ever taken on it. -/
structure DIter where
  node : ℤ
  off : ℤ
deriving DecidableEq, Repr

/-- State of `mystl::deque`: the map of block-pointer slots, the heap of
allocated blocks, and the two sentinel iterators `_start`, `_finish`.
`slots.length` is `_map_size` (`slots = []` models `_map == nullptr`). -/
structure Deque (α : Type) where
  slots : List (Option ℕ)
  blocks : List (List α)
  start : DIter
  finish : DIter
deriving DecidableEq, Repr

variable {α : Type}

/-- Read map slot `i` (`_map[i]`): `none` for an uninitialized spare slot
or an out-of-map read. -/
def slotAt (m : List (Option ℕ)) (i : ℤ) : Option ℕ :=
  if 0 ≤ i then (m.get? i.toNat).getD none else none

/-- `deque::iterator::operator+=(n)` (mystl_deque.h:1503-1521): total
offset `(cur - first) + n`, C++ truncating division by the block size,
with the negative-remainder correction borrowing one block. -/
def advanceIt (buf : ℕ) (it : DIter) (n : ℤ) : DIter :=
  let offset : ℤ := it.off + n
  let block : ℤ := Int.tdiv offset buf
  let idx : ℤ := Int.tmod offset buf
  if idx < 0 then ⟨it.node + (block - 1), idx + buf⟩
  else ⟨it.node + block, idx⟩

/-- `operator-(const iterator&)` (mystl_deque.h:1541-1545):
`(node₁ - node₂) * buffer_size + (cur₁ - first₁) - (cur₂ - first₂)`. -/
def iterDiff (buf : ℕ) (i j : DIter) : ℤ :=
  (i.node - j.node) * buf + (i.off - j.off)

/-- `deque::size()` (mystl_deque.h:731-734): `_finish - _start`. -/
def sizeD (buf : ℕ) (d : Deque α) : ℤ :=
  iterDiff buf d.finish d.start

/-- `size()` as the `size_type` value (sizes are non-negative in every
reachable state). -/
def sizeN (buf : ℕ) (d : Deque α) : ℕ :=
  (sizeD buf d).toNat

/-- The raw pointer value of the iterator's `_cur`, as (block id, offset):
`none` when `*node` is an uninitialized spare slot (a wild pointer in the
source). `operator==` compares exactly these `_cur` pointers. -/
def curAddr (d : Deque α) (it : DIter) : Option (ℕ × ℤ) :=
  (slotAt d.slots it.node).map (fun b => (b, it.off))

/-- Dereference `*it` = `*(first + off)` with `first = *node`: `none`
models an undefined-behaviour read (dead slot or out-of-block offset). -/
def readIter (d : Deque α) (it : DIter) : Option α :=
  match slotAt d.slots it.node with
  | none => none
  | some b =>
    if 0 ≤ it.off then ((d.blocks.get? b).getD []).get? it.off.toNat
    else none

/-- Construct/assign the value `v` at `*it`; a write through a dead slot
or out of block bounds (undefined behaviour in the source) is a no-op. -/
def writeIter (d : Deque α) (it : DIter) (v : α) : Deque α :=
  match slotAt d.slots it.node with
  | none => d
  | some b =>
    if 0 ≤ it.off then
      let blk := ((d.blocks.get? b).getD []).set it.off.toNat v
      { d with blocks := d.blocks.set b blk }
    else d

/-- Store block pointer `b` into map slot `i` (`*new_node = allocate(...)`). -/
def setSlot (d : Deque α) (i : ℤ) (b : ℕ) : Deque α :=
  if 0 ≤ i then { d with slots := d.slots.set i.toNat (some b) } else d

/-- `allocate(buffer_size())`: a fresh block of `buf` cells of raw memory;
`junk` is the arbitrary content of uninitialized cells. -/
def allocBlock (buf : ℕ) (junk : α) (d : Deque α) : ℕ × Deque α :=
  (d.blocks.length, { d with blocks := d.blocks ++ [List.replicate buf junk] })

/-- `deque::operator[]` (mystl_deque.h:651-654): `*(_start + pos)`. -/
def getIdx (buf : ℕ) (d : Deque α) (pos : ℕ) : Option α :=
  readIter d (advanceIt buf d.start pos)

/-- The logical element sequence, read exactly as iteration/indexing reads
it (cell `none` = undefined-behaviour read). -/
def elemsOpt (buf : ℕ) (d : Deque α) : List (Option α) :=
  (List.range (sizeN buf d)).map (getIdx buf d)

/-- `deque()` → `_initialize_map(0)` (mystl_deque.h:50-58, 1015-1041):
map of `0 + 2 + 1 = 3` slots, one block allocated at slot 1 (`_map + 1`),
`_start = _finish = (block₀, block₀, block₀+buf, _map+1)`. -/
def mkEmptyDeque (buf : ℕ) (junk : α) : Deque α :=
  { slots := [none, some 0, none]
    blocks := [List.replicate buf junk]
    start := ⟨1, 0⟩
    finish := ⟨1, 0⟩ }

/-- Number of occupied map slots `_finish._node - _start._node + 1`
(`old_nodes` in `_reallocate_map`). -/
def runLen (d : Deque α) : ℕ :=
  (d.finish.node - d.start.node + 1).toNat

/-- `new_map_size = old_map_size + std::max(old_map_size, add_front + add_back)`
(mystl_deque.h:1051). -/
def newMapSize (addFront addBack : ℕ) (d : Deque α) : ℕ :=
  d.slots.length + max d.slots.length (addFront + addBack)

/-- `new_start = new_map + (new_map_size - old_nodes) / 2 + add_front`
(mystl_deque.h:1063), as a slot index. -/
def newRunStart (addFront addBack : ℕ) (d : Deque α) : ℕ :=
  (newMapSize addFront addBack d - runLen d) / 2 + addFront

/-- `deque::_reallocate_map(add_front, add_back)` (mystl_deque.h:1047-1090):
allocate a fresh map of `newMapSize` (otherwise uninitialized) slots, copy
the occupied run of `old_nodes` block pointers to offset `newRunStart`,
free the old map, and re-aim `_start`/`_finish` at the copied slots
keeping their intra-block offsets. -/
def reallocateMap (addFront addBack : ℕ) (d : Deque α) : Deque α :=
  let M := newMapSize addFront addBack d
  let N := newRunStart addFront addBack d
  let newSlots := (List.range M).map (fun j =>
    if N ≤ j ∧ j < N + runLen d
    then slotAt d.slots (d.start.node + (j - N : ℕ))
    else none)
  { d with
    slots := newSlots
    start := ⟨N, d.start.off⟩
    finish := ⟨(N : ℤ) + (runLen d : ℤ) - 1, d.finish.off⟩ }

/-- `deque::emplace_back` with a value argument (mystl_deque.h:943-976).
Fast path when `_finish._cur != _finish._last` (off ≠ buf): construct at
`_finish._cur`, `++_finish._cur`. Slow path: reallocate the map if
`_finish._node + 1` is the last slot, allocate one block into the next
slot, point `_finish` at its start, construct, advance. -/
def emplaceBack (buf : ℕ) (junk : α) (v : α) (d : Deque α) : Deque α :=
  if d.finish.off ≠ (buf : ℤ) then
    let d1 := writeIter d d.finish v
    { d1 with finish := ⟨d.finish.node, d.finish.off + 1⟩ }
  else
    let d1 := if d.finish.node + 1 = (d.slots.length : ℤ) - 1
      then reallocateMap 0 1 d else d
    let newNode := d1.finish.node + 1
    let bd := allocBlock buf junk d1
    let d2 := setSlot bd.2 newNode bd.1
    let d3 := writeIter d2 ⟨newNode, 0⟩ v
    { d3 with finish := ⟨newNode, 1⟩ }

/-- `deque::emplace_front` with a value argument (mystl_deque.h:912-941),
embedded exactly as written.  Fast path when `_start._cur != _start._first`
(off ≠ 0): construct at `_start._cur - 1` and `--_start._cur`.  Slow path:
reallocate the map if `_start._node == _map`, allocate one block into the
previous slot, set `_start._cur = _start._last - 1` (off = buf - 1),
construct at `_start._cur`, then `--_start._cur` again (off = buf - 2). -/
def emplaceFront (buf : ℕ) (junk : α) (v : α) (d : Deque α) : Deque α :=
  if d.start.off ≠ 0 then
    let p : DIter := ⟨d.start.node, d.start.off - 1⟩
    let d1 := writeIter d p v
    { d1 with start := p }
  else
    let d1 := if d.start.node = 0 then reallocateMap 1 0 d else d
    let newNode := d1.start.node - 1
    let bd := allocBlock buf junk d1
    let d2 := setSlot bd.2 newNode bd.1
    let p : DIter := ⟨newNode, (buf : ℤ) - 1⟩
    let d3 := writeIter d2 p v
    { d3 with start := ⟨newNode, (buf : ℤ) - 2⟩ }

/-- `iterator::operator++` (mystl_deque.h:1466-1474): advance `_cur`,
crossing to the next map slot when it reaches `_last`. -/
def iterSucc (buf : ℕ) (it : DIter) : DIter :=
  if it.off + 1 = (buf : ℤ) then ⟨it.node + 1, 0⟩ else ⟨it.node, it.off + 1⟩

/-- `iterator::operator--` (mystl_deque.h:1484-1493): crossing to the
previous slot when `_cur == _first`. -/
def iterPred (buf : ℕ) (it : DIter) : DIter :=
  if it.off = 0 then ⟨it.node - 1, (buf : ℤ) - 1⟩ else ⟨it.node, it.off - 1⟩

/-- `k` iterations of `*dst = std::move(*src); ++dst; ++src` (the forward
shift loop of `_insert_aux_front`, mystl_deque.h:1139-1141); the element
type of the claims is trivially copy-assignable, for which move-assign
just copies the value. -/
def moveLoopFwd (buf : ℕ) (junk : α) : ℕ → Deque α → DIter → DIter → Deque α
  | 0, d, _, _ => d
  | k+1, d, dst, src =>
    let d' := writeIter d dst ((readIter d src).getD junk)
    moveLoopFwd buf junk k d' (iterSucc buf dst) (iterSucc buf src)

/-- `k` iterations of `*dst = std::move(*src); --dst; --src` (the backward
shift loop of `_insert_aux_back`, mystl_deque.h:1295-1299). -/
def moveLoopBwd (buf : ℕ) (junk : α) : ℕ → Deque α → DIter → DIter → Deque α
  | 0, d, _, _ => d
  | k+1, d, dst, src =>
    let d' := writeIter d dst ((readIter d src).getD junk)
    moveLoopBwd buf junk k d' (iterPred buf dst) (iterPred buf src)

/-- `deque::_insert_aux_front(index, value)` (mystl_deque.h:1114-1153):
make one slot of room at the front (allocating a block when the boundary
block is full), default-construct at the new `begin()`, shift the `index`
elements before the insertion point one slot toward the front
(`for (it = old_front; it != target; ++it, ++front_pos)`), then place
`value` at `begin() + index` and return an iterator to it. -/
def insertAuxFront (buf : ℕ) (junk : α) (d : Deque α) (index : ℤ) (v : α) :
    Deque α × DIter :=
  let d1 :=
    if d.start.off = 0 then
      let da := if d.start.node = 0 then reallocateMap 1 0 d else d
      let newNode := da.start.node - 1
      let bd := allocBlock buf junk da
      let db := setSlot bd.2 newNode bd.1
      { db with start := ⟨newNode, (buf : ℤ) - 1⟩ }
    else { d with start := ⟨d.start.node, d.start.off - 1⟩ }
  let frontPos := d1.start
  let d2 := writeIter d1 frontPos junk
  let d3 := moveLoopFwd buf junk index.toNat d2 frontPos (iterSucc buf frontPos)
  let result := advanceIt buf frontPos index
  let d4 := writeIter d3 result v
  (d4, result)

/-- `deque::_insert_aux_back(index, value)` (mystl_deque.h:1272-1310),
embedded exactly as written: make room at the back, construct at the old
`end()`, `++_finish._cur`, then run
`while (old_back != target) { *back_pos = std::move(*old_back); --back_pos; --old_back; }`
— which executes `old_back - target` iterations — and assign `value` at
`target = begin() + index`. -/
def insertAuxBack (buf : ℕ) (junk : α) (d : Deque α) (index : ℤ) (v : α) :
    Deque α × DIter :=
  let d1 :=
    if d.finish.off = (buf : ℤ) then
      let da := if d.finish.node = (d.slots.length : ℤ) - 1
        then reallocateMap 0 1 d else d
      let newNode := da.finish.node + 1
      let bd := allocBlock buf junk da
      let db := setSlot bd.2 newNode bd.1
      { db with finish := ⟨newNode, 0⟩ }
    else d
  let backPos := d1.finish
  let oldBack := iterPred buf backPos
  let target := advanceIt buf d1.start index
  let d2 := writeIter d1 backPos junk
  let d3 := { d2 with finish := ⟨d1.finish.node, d1.finish.off + 1⟩ }
  let steps := (iterDiff buf oldBack target).toNat
  let d4 := moveLoopBwd buf junk steps d3 backPos oldBack
  let d5 := writeIter d4 target v
  (d5, target)

/-- `deque::insert(const_iterator pos, const T& value)`
(mystl_deque.h:761-802), with `index = pos - cbegin()` passed directly.
Empty container → append and return `begin()` (source line 769 spells the
call `empalce_back(value)`, a name the class never declares — modelled
here as the evidently intended `emplace_back`; see the C10 analysis).
`index == 0` → `emplace_front`; `index == size` → `emplace_back`;
otherwise pick the shift direction from the boundary-block spare room,
breaking ties by `index * 2 < num_elements`. -/
def dequeInsert (buf : ℕ) (junk : α) (d : Deque α) (index : ℤ) (v : α) :
    Deque α × DIter :=
  let num := sizeD buf d
  if num = 0 then
    let d' := emplaceBack buf junk v d
    (d', d'.start)
  else if index = 0 then
    let d' := emplaceFront buf junk v d
    (d', d'.start)
  else if index = num then
    let d' := emplaceBack buf junk v d
    (d', advanceIt buf d'.finish (-1))
  else
    let frontHasSpace := d.start.off ≠ 0
    let backHasSpace := d.finish.off ≠ (buf : ℤ)
    let moveFront : Bool :=
      if frontHasSpace ∧ ¬backHasSpace then true
      else if ¬frontHasSpace ∧ backHasSpace then false
      else decide (index * 2 < num)
    if moveFront then insertAuxFront buf junk d index v
    else insertAuxBack buf junk d index v

/-- `deque::insert(const_iterator pos, T&& value)` (mystl_deque.h:804-807):
its body is `return insert(pos, std::move(value));`, and overload
resolution on the rvalue `std::move(value)` selects this same `T&&`
overload again, so each call only re-enters itself.  The embedding is
step-indexed by the remaining stack depth: a call that returns a value
within `depth` nested frames would yield `some`; the recursion consumes
every frame without ever reaching a base case. -/
def dequeInsertRvalue (buf : ℕ) (junk : α) (d : Deque α) (index : ℤ) (v : α) :
    ℕ → Option (Deque α × DIter)
  | 0 => none
  | depth+1 => dequeInsertRvalue buf junk d index v depth

/-- `deque::at(pos)` (mystl_deque.h:662-676): `pos >= size()` throws
`std::out_of_range` (the `error` case); otherwise `return operator[](pos)`.
The container itself is not touched (the model is a pure function of it). -/
def atD (buf : ℕ) (d : Deque α) (pos : ℕ) : Except Unit (Option α) :=
  if sizeN buf d ≤ pos then Except.error () else Except.ok (getIdx buf d pos)

/-- `deque::_deallocate_all_blocks()` (mystl_deque.h:1093-1111): the map
slot indices whose blocks get deallocated; `if (!_map) return;` — a null
map frees nothing. -/
def deallocateAllBlocks (d : Deque α) : List ℤ :=
  if d.slots = [] then []
  else (List.range (runLen d)).map (fun i => d.start.node + (i : ℤ))

/-- The steal branch of `deque(deque&& other)` (mystl_deque.h:164-181),
taken whenever the allocators are interchangeable: the destination takes
`_map`, `_map_size`, `_start`, `_finish` (and with them ownership of every
block); `other` is reset to `_map = nullptr`, `_map_size = 0`,
`_start = _finish = iterator()`. -/
def dequeMoveConstruct (d : Deque α) : Deque α × Deque α :=
  ({ slots := d.slots, blocks := d.blocks, start := d.start, finish := d.finish },
   { slots := [], blocks := [], start := ⟨0, 0⟩, finish := ⟨0, 0⟩ })

/-! ### Vector (`mystl_vector.h`)

The vector owns one contiguous buffer `[_start, _finish)` inside capacity
`[_start, _end_of_storage)`.  For the pure claims it is modelled by its
element list (and, where capacity matters, the capacity); for the
exception-safety claim the old buffer, the new buffer's cells and the
allocation ledger are tracked explicitly. -/

/-- `vector::at(pos)` (mystl_vector.h:527-541): `pos >= size()` throws
`std::out_of_range`; otherwise `return *(_start + pos)`. -/
def vecAt (xs : List α) (pos : ℕ) : Except Unit α :=
  if h : xs.length ≤ pos then Except.error ()
  else Except.ok (xs.get ⟨pos, by omega⟩)

/-- The element-wise shift loop of `vector::erase(first, last)`
(mystl_vector.h:787-792): `tail` iterations of
`*write = std::move(*read); ++read; ++write` starting at
`write = p_first`, `read = p_last`. -/
def eraseMoveLoop (junk : α) : ℕ → List α → ℕ → ℕ → List α
  | 0, xs, _, _ => xs
  | k+1, xs, write, read =>
    eraseMoveLoop junk k (xs.set write (xs.getD read junk)) (write+1) (read+1)

/-- `vector::erase(const_iterator first, const_iterator last)`
(mystl_vector.h:736-806) on a buffer holding `xs`, with
`first = begin() + f`, `last = begin() + l`: shift the tail left by
`l - f`, destroy the now-dead tail cells, set
`_finish = _finish - (l - f)`, and return `p_first` (index `f`).
The result is the new element list paired with the returned index. -/
def vecEraseRange (junk : α) (xs : List α) (f l : ℕ) : List α × ℕ :=
  if f = l then (xs, f)
  else
    let toRemove := l - f
    let tailCount := xs.length - l
    let moved := eraseMoveLoop junk tailCount xs f l
    (moved.take (xs.length - toRemove), f)

/-- The steal path of `vector(vector&& other)` (mystl_vector.h:219-231):
the three pointers move over unconditionally and `other`'s pointers are
nulled. `none` models the null-pointer state. -/
def vecMoveConstruct (v : Option (List α × ℕ)) :
    Option (List α × ℕ) × Option (List α × ℕ) :=
  (v, none)

/-- `vector::size()` = `distance(_start, _finish)`; null pointers give 0. -/
def vecSize (v : Option (List α × ℕ)) : ℕ :=
  match v with
  | none => 0
  | some p => p.1.length

/-! ### Exception-safety model for `vector::reserve`
(mystl_vector.h:666-709 with `mystl::uninitialized_move_n`,
mystl_memory.h:114-141), non-trivially-move-constructible path.

The element type instantiating the claim is a user type whose move
constructor may throw and leaves the moved-from source holding `0`
(original element values are encoded as numbers).  Construction calls
draw on a budget: the call made when the budget is exhausted throws —
budget `N - 1` makes the `N`-th constructor call throw.  New-buffer cells
are `some v` once constructed, `none` while raw or after destruction. -/

/-- The construction loop of `uninitialized_move_n` (mystl_memory.h:129-134):
`construct(alloc, cur, std::move(*first))` repeated, counting
`constructed`.  Returns (old cells, new cells, constructed, remaining
budget, completed?). -/
def umoveGo : ℕ → ℕ → ℕ → List ℕ → List (Option ℕ) →
    List ℕ × List (Option ℕ) × ℕ × ℕ × Bool
  | 0, k, budget, old, nb => (old, nb, k, budget, true)
  | r+1, k, budget, old, nb =>
    if budget = 0 then (old, nb, k, budget, false)
    else
      let v := old.getD k 0
      umoveGo r (k+1) (budget - 1) (old.set k 0) (nb.set k (some v))

/-- `destroy_n(alloc, result, constructed)` on the new buffer
(mystl_memory.h:137 via 146-159; the element type is not trivially
destructible, so each constructed cell is destroyed). -/
def destroyCells (nb : List (Option ℕ)) (n : ℕ) : List (Option ℕ) :=
  (List.range nb.length).map (fun i => if i < n then none else nb.getD i none)

/-- Outcome of `vector::reserve(new_cap)` under a construction budget:
the container's buffer afterwards (`elems`), its capacity, whether the
call threw, the allocation sizes requested and the deallocation sizes
returned by the operation, and how many cells of the failed destination
remain constructed. -/
structure ReserveOutcome where
  elems : List ℕ
  cap : ℕ
  threw : Bool
  allocs : List ℕ
  deallocs : List ℕ
  newLive : ℕ
deriving DecidableEq, Repr

/-- `vector::reserve(new_cap)` (mystl_vector.h:666-709), non-trivial
element path, under a construction budget.  `allocate(new_cap)`; then
`uninitialized_move_n(alloc, old_start, old_size, new_start)` — on a
throw its own catch destroys the `constructed` new elements and
re-throws, and `reserve`'s catch deallocates the new buffer and
re-throws, leaving `_start/_finish/_end_of_storage` (and hence the old
buffer, as mutated by the moves) in place.  On success the old elements
are destroyed, the old buffer deallocated, the pointers updated. -/
def reserveModel (elems : List ℕ) (cap newCap budget : ℕ) : ReserveOutcome :=
  if newCap ≤ cap then
    { elems := elems, cap := cap, threw := false, allocs := [], deallocs := [],
      newLive := 0 }
  else
    let nb0 : List (Option ℕ) := List.replicate newCap none
    let r := umoveGo elems.length 0 budget elems nb0
    let old' := r.1
    let nb1 := r.2.1
    let constructed := r.2.2.1
    let ok := r.2.2.2.2
    if ok then
      { elems := (List.range elems.length).map (fun i => (nb1.getD i none).getD 0)
        cap := newCap, threw := false, allocs := [newCap], deallocs := [cap]
        newLive := 0 }
    else
      let nb2 := destroyCells nb1 constructed
      { elems := old', cap := cap, threw := true, allocs := [newCap]
        deallocs := [newCap]
        newLive := (nb2.filter (fun c => c.isSome)).length }

/-! ### Well-formedness of a deque state

`WF` captures the representation invariant every reachable, iterable deque
state satisfies: positive block size, the sentinel cursors inside the map
and ordered, intra-block offsets in range, and every map slot between
`_start._node` and `_finish._node` holding a live block of `buf` cells. -/

/-- Slot `i` holds a live block of exactly `buf` cells. -/
def blockOkB (buf : ℕ) (d : Deque α) (i : ℤ) : Bool :=
  match slotAt d.slots i with
  | none => false
  | some b =>
    match d.blocks.get? b with
    | none => false
    | some blk => blk.length == buf

/-- Representation invariant of a deque state (§3 of the data model):
`first ≤ cur ≤ last` at both sentinels, `start ≤ finish`, both inside the
map, and the occupied slot run backed by live blocks. -/
def WF (buf : ℕ) (d : Deque α) : Prop :=
  0 < buf ∧
  0 ≤ d.start.node ∧
  d.start.node ≤ d.finish.node ∧
  d.finish.node < (d.slots.length : ℤ) ∧
  (0 ≤ d.start.off ∧ d.start.off < (buf : ℤ)) ∧
  (0 ≤ d.finish.off ∧ d.finish.off ≤ (buf : ℤ)) ∧
  (d.start.node = d.finish.node → d.start.off ≤ d.finish.off) ∧
  ∀ j < runLen d, blockOkB buf d (d.start.node + (j : ℤ)) = true

instance (buf : ℕ) (d : Deque α) : Decidable (WF buf d) := by
  unfold WF; infer_instance

theorem advanceIt_nonneg (buf : ℕ) (hbuf : 0 < buf) (it : DIter) (n : ℤ)
    (h : 0 ≤ it.off + n) :
    advanceIt buf it n
      = ⟨it.node + (it.off + n) / (buf : ℤ), (it.off + n) % (buf : ℤ)⟩ := by
  have hb : (0 : ℤ) ≤ (buf : ℤ) := by exact_mod_cast Nat.zero_le buf
  have hb0 : ((buf : ℤ)) ≠ 0 := by exact_mod_cast hbuf.ne'
  unfold advanceIt
  simp only [Int.tdiv_eq_ediv h hb, Int.tmod_eq_emod h hb]
  have hnn : ¬ ((it.off + n) % (buf : ℤ) < 0) := not_lt.mpr (Int.emod_nonneg _ hb0)
  simp [hnn]

theorem blockOkB_spec (buf : ℕ) (d : Deque α) (i : ℤ)
    (h : blockOkB buf d i = true) :
    ∃ b blk, slotAt d.slots i = some b ∧ d.blocks.get? b = some blk ∧
      blk.length = buf := by
  unfold blockOkB at h
  split at h
  · exact absurd h (by simp)
  next b hs =>
    split at h
    · exact absurd h (by simp)
    next blk hb => exact ⟨b, blk, hs, hb, by simpa using h⟩

theorem getIdx_eq_read (buf : ℕ) (hbuf : 0 < buf) (d : Deque α)
    (hso : 0 ≤ d.start.off) (k : ℕ) :
    getIdx buf d k
      = (match slotAt d.slots (d.start.node + (d.start.off + k) / (buf : ℤ)) with
         | none => none
         | some b =>
           ((d.blocks.get? b).getD []).get? ((d.start.off + k) % (buf : ℤ)).toNat) := by
  have hk : (0 : ℤ) ≤ d.start.off + k := by positivity
  have hb0 : ((buf : ℤ)) ≠ 0 := by exact_mod_cast hbuf.ne'
  unfold getIdx readIter
  rw [advanceIt_nonneg buf hbuf _ _ hk]
  have hnn : (0 : ℤ) ≤ (d.start.off + k) % (buf : ℤ) := Int.emod_nonneg _ hb0
  simp only [hnn, if_pos]

theorem advance_q_lt (buf : ℕ) (d : Deque α) (hw : WF buf d) (k : ℕ)
    (hk : (k : ℤ) < sizeD buf d) :
    (d.start.off + k) / (buf : ℤ) < d.finish.node - d.start.node + 1 := by
  obtain ⟨hbuf, hsn, hord, hub, ⟨hso0, hso1⟩, ⟨hfo0, hfo1⟩, hsf, hrun⟩ := hw
  have hbz : (0 : ℤ) < (buf : ℤ) := by exact_mod_cast hbuf
  rw [Int.ediv_lt_iff_lt_mul hbz]
  have hs : sizeD buf d
      = (d.finish.node - d.start.node) * buf + (d.finish.off - d.start.off) := by
    unfold sizeD iterDiff; ring
  have hexp : (d.finish.node - d.start.node + 1) * (buf : ℤ)
      = (d.finish.node - d.start.node) * buf + buf := by ring
  linarith

theorem getIdx_some_of_WF (buf : ℕ) (d : Deque α) (hw : WF buf d) (k : ℕ)
    (hk : k < sizeN buf d) :
    ∃ v, getIdx buf d k = some v := by
  have hkz : (k : ℤ) < sizeD buf d := Int.lt_toNat.mp hk
  have hqlt := advance_q_lt buf d hw k hkz
  obtain ⟨hbuf, hsn, hord, hub, ⟨hso0, hso1⟩, ⟨hfo0, hfo1⟩, hsf, hrun⟩ := hw
  have hbz : (0 : ℤ) < (buf : ℤ) := by exact_mod_cast hbuf
  set q : ℤ := (d.start.off + k) / (buf : ℤ) with hq
  have hq0 : 0 ≤ q := Int.ediv_nonneg (by positivity) (by positivity)
  have hj : q.toNat < runLen d := by unfold runLen; omega
  have hok := hrun q.toNat hj
  have hcast : (q.toNat : ℤ) = q := Int.toNat_of_nonneg hq0
  rw [hcast] at hok
  obtain ⟨b, blk, hs', hb', hlen⟩ := blockOkB_spec _ _ _ hok
  rw [getIdx_eq_read buf hbuf d hso0 k, ← hq, hs']
  simp only [hb', Option.getD_some]
  have hr : ((d.start.off + k) % (buf : ℤ)).toNat < blk.length := by
    rw [hlen]
    have := Int.emod_lt_of_pos (d.start.off + (k : ℤ)) hbz
    have := Int.emod_nonneg (d.start.off + (k : ℤ)) (by positivity : ((buf:ℤ)) ≠ 0)
    omega
  exact ⟨blk.get ⟨_, hr⟩, by simp [List.get?_eq_get hr]⟩

/-! ### Behaviour of `_reallocate_map` on well-formed states -/

theorem realloc_slotAt (addFront addBack : ℕ) (d : Deque α)
    (hin : newRunStart addFront addBack d + runLen d
        ≤ newMapSize addFront addBack d)
    (j : ℕ) (hj : j < runLen d) :
    slotAt (reallocateMap addFront addBack d).slots
        ((newRunStart addFront addBack d : ℤ) + j)
      = slotAt d.slots (d.start.node + (j : ℤ)) := by
  set M := newMapSize addFront addBack d with hM
  set N := newRunStart addFront addBack d with hN
  show slotAt ((List.range M).map _) ((N : ℤ) + j) = _
  unfold slotAt
  rw [if_pos (by positivity : (0:ℤ) ≤ (N:ℤ) + j)]
  have ht : ((N : ℤ) + j).toNat = N + j := by omega
  rw [ht, List.get?_map, List.get?_range (by omega : N + j < M)]
  simp only [Option.map_some', Option.getD_some]
  rw [if_pos ⟨by omega, by omega⟩]
  have hj' : (N + j - N : ℕ) = j := by omega
  rw [hj']

theorem realloc_blocks (addFront addBack : ℕ) (d : Deque α) :
    (reallocateMap addFront addBack d).blocks = d.blocks := rfl

theorem realloc_start (addFront addBack : ℕ) (d : Deque α) :
    (reallocateMap addFront addBack d).start
      = ⟨(newRunStart addFront addBack d : ℤ), d.start.off⟩ := rfl

theorem realloc_finish (addFront addBack : ℕ) (d : Deque α) :
    (reallocateMap addFront addBack d).finish
      = ⟨(newRunStart addFront addBack d : ℤ) + (runLen d : ℤ) - 1,
         d.finish.off⟩ := rfl

theorem realloc_sizeD (buf : ℕ) (addFront addBack : ℕ) (d : Deque α)
    (hw : WF buf d) :
    sizeD buf (reallocateMap addFront addBack d) = sizeD buf d := by
  obtain ⟨hbuf, hsn, hord, hub, ⟨hso0, hso1⟩, ⟨hfo0, hfo1⟩, hsf, hrun⟩ := hw
  have h1 : ((runLen d : ℤ)) = d.finish.node - d.start.node + 1 := by
    unfold runLen; omega
  simp only [sizeD, iterDiff, realloc_start, realloc_finish]
  rw [h1]; ring

theorem realloc_getIdx (buf : ℕ) (addFront addBack : ℕ) (d : Deque α)
    (hw : WF buf d)
    (hin : newRunStart addFront addBack d + runLen d
        ≤ newMapSize addFront addBack d)
    (k : ℕ) (hk : (k : ℤ) < sizeD buf d) :
    getIdx buf (reallocateMap addFront addBack d) k = getIdx buf d k := by
  have hqlt := advance_q_lt buf d hw k hk
  obtain ⟨hbuf, hsn, hord, hub, ⟨hso0, hso1⟩, ⟨hfo0, hfo1⟩, hsf, hrun⟩ := hw
  set q : ℤ := (d.start.off + k) / (buf : ℤ) with hq
  have hq0 : 0 ≤ q := Int.ediv_nonneg (by positivity) (by positivity)
  have hso0' : 0 ≤ (reallocateMap addFront addBack d).start.off := by
    rw [realloc_start]; exact hso0
  rw [getIdx_eq_read buf hbuf _ hso0' k, getIdx_eq_read buf hbuf d hso0 k]
  rw [realloc_start, realloc_blocks]
  simp only
  rw [← hq]
  have hqj : q = ((q.toNat : ℕ) : ℤ) := (Int.toNat_of_nonneg hq0).symm
  have hslot : slotAt (reallocateMap addFront addBack d).slots
      ((newRunStart addFront addBack d : ℤ) + q)
        = slotAt d.slots (d.start.node + q) := by
    rw [hqj]
    exact realloc_slotAt addFront addBack d hin q.toNat (by unfold runLen; omega)
  rw [hslot]

theorem realloc_elemsOpt (buf : ℕ) (addFront addBack : ℕ) (d : Deque α)
    (hw : WF buf d)
    (hin : newRunStart addFront addBack d + runLen d
        ≤ newMapSize addFront addBack d) :
    elemsOpt buf (reallocateMap addFront addBack d) = elemsOpt buf d := by
  unfold elemsOpt sizeN
  rw [realloc_sizeD buf addFront addBack d hw]
  apply List.map_congr_left
  intro k hkmem
  have hk : k < (sizeD buf d).toNat := List.mem_range.mp hkmem
  exact realloc_getIdx buf addFront addBack d hw hin k (Int.lt_toNat.mp hk)

/-! ### Concrete sample states

`buf = 4` models `deque<T>` for a 128-byte `T` (`buffer_size() = 512/128`);
`99` is the junk value filling uninitialized cells. -/

/-- `deque<T> d; d.emplace_back(1); d.emplace_back(2); d.emplace_back(3);` —
a well-formed deque holding `1, 2, 3` in one partially filled block. -/
def dqThree : Deque ℕ :=
  emplaceBack 4 99 3 (emplaceBack 4 99 2 (emplaceBack 4 99 1 (mkEmptyDeque 4 99)))

/-- One more `emplace_back(4)`: the fast path fills the block completely
and leaves `_finish._cur == _finish._last`. -/
def dqFour : Deque ℕ := emplaceBack 4 99 4 dqThree

/-- `deque<T> d; d.emplace_back(10); d.emplace_front(20);` — the first
`emplace_front` on a block-aligned front takes the slow path. -/
def dqFrontBug : Deque ℕ :=
  emplaceFront 4 99 20 (emplaceBack 4 99 10 (mkEmptyDeque 4 99))

/-- `k` applications of `iterator::operator++`. -/
def iterSuccN (buf : ℕ) : ℕ → DIter → DIter
  | 0, it => it
  | k+1, it => iterSuccN buf k (iterSucc buf it)

/-! ### The claims -/

/-- C1: the claim `size() == distance(begin(), end())` and
`begin() + size() == end()` in every reachable state FAILS on the deque.
Reachable state: four `emplace_back`s exactly fill the first block and
leave `_finish = (cur == last)` unnormalized.  Then `size()` is 4 but
`begin() + size()` crosses into the uninitialized spare map slot — its
`_cur` is a wild pointer (`curAddr = none`) and does not equal `end()`'s
`_cur` — and no number of `operator++` steps from `begin()` ever produces
an iterator with `_cur == end()._cur`, so the `!=`-driven distance walk
diverges past the end. -/
theorem C1_size_iterator_consistency_fails_at_block_boundary :
    sizeN 4 dqFour = 4 ∧
    curAddr dqFour (advanceIt 4 dqFour.start (sizeN 4 dqFour)) = none ∧
    curAddr dqFour dqFour.finish = some (0, 4) ∧
    curAddr dqFour (advanceIt 4 dqFour.start (sizeN 4 dqFour))
      ≠ curAddr dqFour dqFour.finish ∧
    (∀ k < 9, curAddr dqFour (iterSuccN 4 k dqFour.start)
      ≠ curAddr dqFour dqFour.finish) := by decide

/-- C2: the claim as stated — with no restriction on the requested extra
slots — FAILS on a reachable call.  `insert(begin() + 1, 17, v)` on the
three-element deque (front block boundary full, back short of 17 cells,
tie-break `index*2 < size` picks the front) computes
`need_spaces = 17`, `need_blocks = 5` and, since
`_start._node - _map = 1 < 5`, calls `_reallocate_map(5, 0)`
(mystl_deque.h:1163-1165).  Then `new_map_size = 3 + max(3, 5) = 8`, but
the claimed run offset `(8 - 1)/2 + 5 = 8` is PAST the last slot of the
8-slot map: the copy loop (mystl_deque.h:1066-1068) writes out of bounds,
so the occupied run is not copied into the new map at the stated offset
(the slot there is outside the allocation while the old run slot is live)
and the element sequence is not preserved — every logical read of the
resulting state goes through a dead slot. -/
theorem C2_reallocate_map_out_of_bounds_counterexample :
    WF 4 dqThree ∧
    newMapSize 5 0 dqThree = 8 ∧
    newRunStart 5 0 dqThree = 8 ∧
    newMapSize 5 0 dqThree < newRunStart 5 0 dqThree + runLen dqThree ∧
    (reallocateMap 5 0 dqThree).slots.length = 8 ∧
    slotAt (reallocateMap 5 0 dqThree).slots
        ((newRunStart 5 0 dqThree : ℤ) + (0 : ℤ)) = none ∧
    slotAt dqThree.slots (dqThree.start.node + (0 : ℤ)) = some 0 ∧
    (0 : ℕ) < runLen dqThree ∧
    elemsOpt 4 (reallocateMap 5 0 dqThree) = [none, none, none] ∧
    elemsOpt 4 (reallocateMap 5 0 dqThree) ≠ elemsOpt 4 dqThree := by decide

/-- Every single-slot growth request (`add_front + add_back = 1`, as
issued by `emplace_front`, `emplace_back` and single-element insert)
places the re-centered run inside the new map. -/
theorem single_slot_growth_fits (d : Deque α) (addFront addBack : ℕ)
    (hfb : addFront + addBack = 1) (hr : runLen d ≤ d.slots.length) :
    newRunStart addFront addBack d + runLen d
      ≤ newMapSize addFront addBack d := by
  unfold newRunStart newMapSize
  omega

/-- C2 (amended): `_reallocate_map(add_front, add_back)` on a well-formed
deque, whenever the re-centered placement fits inside the new map
(`(new_size - old_node_count)/2 + add_front + old_node_count ≤ new_size` —
true for every single-slot growth request, but violated by large bulk
front/back requests, where the source's copy writes out of bounds),
produces a map of exactly `old_size + max(old_size, add_front + add_back)`
slots, copies the occupied run unchanged to slot offset
`(new_size - old_node_count)/2 + add_front`, and leaves the deque's size
and element sequence unchanged. -/
theorem C2_reallocate_map_policy (buf : ℕ) (d : Deque ℕ) (addFront addBack : ℕ)
    (hw : WF buf d)
    (hin : newRunStart addFront addBack d + runLen d
        ≤ newMapSize addFront addBack d) :
    (reallocateMap addFront addBack d).slots.length
        = d.slots.length + max d.slots.length (addFront + addBack) ∧
    (∀ j < runLen d,
      slotAt (reallocateMap addFront addBack d).slots
          ((newRunStart addFront addBack d : ℤ) + j)
        = slotAt d.slots (d.start.node + (j : ℤ))) ∧
    sizeD buf (reallocateMap addFront addBack d) = sizeD buf d ∧
    elemsOpt buf (reallocateMap addFront addBack d) = elemsOpt buf d := by
  refine ⟨?_, fun j hj => realloc_slotAt addFront addBack d hin j hj,
    realloc_sizeD buf addFront addBack d hw,
    realloc_elemsOpt buf addFront addBack d hw hin⟩
  simp [reallocateMap, newMapSize]

/-- Witness for C2: the reallocation triggered by back growth
(`_reallocate_map(0, 1)`) on the concrete three-element deque. -/
theorem C2_reallocate_map_policy_witness :
    WF 4 dqThree ∧
    newRunStart 0 1 dqThree + runLen dqThree ≤ newMapSize 0 1 dqThree ∧
    elemsOpt 4 (reallocateMap 0 1 dqThree) = elemsOpt 4 dqThree ∧
    (reallocateMap 0 1 dqThree).slots.length
      = dqThree.slots.length + max dqThree.slots.length (0 + 1) :=
  ⟨by decide, by decide,
   (C2_reallocate_map_policy 4 dqThree 0 1 (by decide) (by decide)).2.2.2,
   (C2_reallocate_map_policy 4 dqThree 0 1 (by decide) (by decide)).1⟩

/-- C3: the claim that `insert(pos, value)` at an interior position always
yields the old sequence with `value` inserted at `index = pos - begin()`
FAILS.  On the deque `1, 2, 3` with an empty front boundary block and a
back boundary block with room, `insert(begin() + 1, 9)` takes the
back-shift path, whose `while (old_back != target)` loop stops one element
early: the result is `1, 9, 3, 3` — element `2` is overwritten and lost,
`3` is duplicated — instead of `1, 9, 2, 3`.  (The returned iterator does
point at the inserted `9`, and the direction choice itself matches the
claim; only the resulting sequence is wrong.) -/
theorem C3_middle_insert_back_shift_loses_element :
    elemsOpt 4 (dequeInsert 4 99 dqThree 1 9).1
      = [some 1, some 9, some 3, some 3] ∧
    elemsOpt 4 (dequeInsert 4 99 dqThree 1 9).1
      ≠ [some 1, some 9, some 2, some 3] ∧
    readIter (dequeInsert 4 99 dqThree 1 9).1 (dequeInsert 4 99 dqThree 1 9).2
      = some 9 := by
  decide

/-- C4: the claim that after a construction throw during a bulk operation
the container keeps its exact size AND contents FAILS for `reserve`:
`uninitialized_move_n` moves from the old elements with plain `std::move`
(not `move_if_noexcept`), so for an element type whose throwing move
constructor empties its source (values modelled as numbers, moved-from
state as `0`), a throw on the 3rd construction of `reserve(6)` on
`{5, 6, 7}` leaves the container with its old size and buffer but contents
`{0, 0, 7}`.  The other conjuncts hold: every element the failed operation
constructed is destroyed (`newLive = 0`) and its single allocation is
matched by a deallocation. -/
theorem C4_reserve_rollback_leaves_moved_from_elements :
    (reserveModel [5, 6, 7] 3 6 2).threw = true ∧
    (reserveModel [5, 6, 7] 3 6 2).elems.length = 3 ∧
    (reserveModel [5, 6, 7] 3 6 2).cap = 3 ∧
    (reserveModel [5, 6, 7] 3 6 2).allocs = (reserveModel [5, 6, 7] 3 6 2).deallocs ∧
    (reserveModel [5, 6, 7] 3 6 2).newLive = 0 ∧
    (reserveModel [5, 6, 7] 3 6 2).elems = [0, 0, 7] ∧
    (reserveModel [5, 6, 7] 3 6 2).elems ≠ [5, 6, 7] := by decide

/-- C5: `at(pos)` on deque and vector signals out-of-range exactly when
`pos ≥ size()`, and for `pos < size()` returns the element `operator[]`
reads at logical index `pos` (a well-defined element on every well-formed
deque); the model is a pure function of the container, which is left
unchanged. -/
theorem C5_at_bounds_checked_access (buf : ℕ) (d : Deque ℕ) (hw : WF buf d)
    (pos : ℕ) (xs : List ℕ) (q : ℕ) :
    (atD buf d pos = Except.error () ↔ sizeN buf d ≤ pos) ∧
    (pos < sizeN buf d →
      ∃ v, getIdx buf d pos = some v ∧ atD buf d pos = Except.ok (some v)) ∧
    (vecAt xs q = Except.error () ↔ xs.length ≤ q) ∧
    (∀ h : q < xs.length, vecAt xs q = Except.ok (xs.get ⟨q, h⟩)) := by
  refine ⟨?_, ?_, ?_, ?_⟩
  · unfold atD; split <;> simp_all
  · intro hlt
    obtain ⟨v, hv⟩ := getIdx_some_of_WF buf d hw pos hlt
    refine ⟨v, hv, ?_⟩
    unfold atD
    rw [if_neg (by omega), hv]
  · unfold vecAt; split <;> simp_all
  · intro h; unfold vecAt; rw [dif_neg (by omega)]

/-- Witness for C5 at the three-element deque, `pos = 1`. -/
theorem C5_at_bounds_checked_access_witness :
    WF 4 dqThree ∧ 1 < sizeN 4 dqThree ∧
    (∃ v, getIdx 4 dqThree 1 = some v ∧ atD 4 dqThree 1 = Except.ok (some v)) :=
  ⟨by decide, by decide,
   (C5_at_bounds_checked_access 4 dqThree (by decide) 1 [] 0).2.1 (by decide)⟩

/-- C6: the claim that `N` `emplace_back`s then `N` `emplace_front`s on an
empty deque give `size() == 2N` with the fronts reversed before the backs
FAILS already at `N = 1`: the `emplace_front` slow path sets
`_start._cur = _start._last - 1`, constructs there, and then decrements
`_start._cur` once more, so `_start` ends up one cell BEFORE the new
element.  After `emplace_back(10); emplace_front(20)` the size is 3 (not
2) and the logical sequence is `junk, 20, 10` — index 0 exposes the
never-constructed cell (filler 99). -/
theorem C6_emplace_front_slow_path_breaks_sequence :
    sizeD 4 dqFrontBug = 3 ∧ sizeD 4 dqFrontBug ≠ 2 ∧
    getIdx 4 dqFrontBug 0 = some 99 ∧
    getIdx 4 dqFrontBug 1 = some 20 ∧
    getIdx 4 dqFrontBug 2 = some 10 := by decide

/-- C7: move construction with interchangeable allocators steals the map,
blocks and sentinels — the destination's element sequence is exactly the
source's former one — and resets the source to the null-map state with
default-constructed sentinel iterators, whose size formula gives 0 and
whose destructor frees nothing (`_deallocate_all_blocks` returns early on
a null map; the element loop from `_start` to `_finish` runs zero times).
The vector move constructor likewise transfers the three pointers and
nulls the source. -/
theorem C7_move_construction_steals_and_empties_source
    (buf : ℕ) (d : Deque ℕ) (v : Option (List ℕ × ℕ)) :
    elemsOpt buf (dequeMoveConstruct d).1 = elemsOpt buf d ∧
    (dequeMoveConstruct d).2.slots = [] ∧
    (dequeMoveConstruct d).2.start = ⟨0, 0⟩ ∧
    (dequeMoveConstruct d).2.finish = ⟨0, 0⟩ ∧
    sizeD buf (dequeMoveConstruct d).2 = 0 ∧
    deallocateAllBlocks (dequeMoveConstruct d).2 = [] ∧
    (vecMoveConstruct v).1 = v ∧
    (vecMoveConstruct v).2 = none ∧
    vecSize (vecMoveConstruct v).2 = 0 := by
  refine ⟨rfl, rfl, rfl, rfl, ?_, rfl, rfl, rfl, rfl⟩
  simp [sizeD, iterDiff, dequeMoveConstruct]

/-- C8: `erase(begin()+1, begin()+4)` on the vector `{1,2,3,4,5}` yields
`{1,5}` and returns `p_first`, the iterator at index 1, which dereferences
to `5`. -/
theorem C8_erase_range_on_five_elements :
    vecEraseRange 0 [1, 2, 3, 4, 5] 1 4 = ([1, 5], 1) ∧
    ([1, 5] : List ℕ).getD 1 0 = 5 := by decide

/-- C9: the claim that `insert(pos, T&&)` terminates with the value
inserted FAILS: its body `return insert(pos, std::move(value));`
re-selects the same `T&&` overload, so the call never terminates — for
every stack depth the step-indexed embedding still yields no result. -/
theorem C9_insert_rvalue_never_terminates (buf : ℕ) (junk : ℕ) (d : Deque ℕ)
    (index : ℤ) (v : ℕ) :
    ∀ depth, dequeInsertRvalue buf junk d index v depth = none := by
  intro depth
  induction depth with
  | zero => rfl
  | succ n ih => simpa [dequeInsertRvalue] using ih

/-- C10: the empty-deque branch of `insert(pos, const T&)` as INTENDED
(source line 769 spells its call `empalce_back(value)`, a name the class
never declares, so every instantiation of this `insert` overload is
ill-formed — the code cannot exhibit the claimed behaviour; with the call
read as the evidently intended `emplace_back`) appends the value: the
deque ends with size 1, sole element `7`, and the returned iterator equals
`begin()`. -/
theorem C10_insert_on_empty_intended_behavior :
    sizeD 4 (dequeInsert 4 99 (mkEmptyDeque 4 99) 0 7).1 = 1 ∧
    getIdx 4 (dequeInsert 4 99 (mkEmptyDeque 4 99) 0 7).1 0 = some 7 ∧
    (dequeInsert 4 99 (mkEmptyDeque 4 99) 0 7).2
      = (dequeInsert 4 99 (mkEmptyDeque 4 99) 0 7).1.start := by decide

end MyStl

